import Mathlib

/-!
# Verification of the frog-game authoritative server

Shallow embedding of `src/server/src/index.js` (Node/socket.io server).

Modelling conventions:
* JS `number` values that are always integers in the reachable states
  (health, maxHealth, timestamps in ms, xp, level) are modelled as `ℤ`/`ℕ`;
  the server only performs integer arithmetic on them, which is exact in
  IEEE doubles, so this is faithful.
* Coordinates and frog sizes are modelled as `ℚ`.  The server only copies
  coordinates from pads to players and compares them with `===`, and sizes
  are always of the form `0.7 + 0.05 k` (`k ≤ 9`) compared with `<`; both
  operations agree with exact rational arithmetic for these values (the
  rounding error of doubles is ~1e-16, far below the 0.05 spacing).
* `Date.now()` results are passed to handlers as an explicit `now : ℤ`
  argument; `Math.random()`-driven choices (spawn-pad pick, freshly
  generated flies) are passed as explicit arguments as well.
* JS `Map` objects are modelled as association lists in insertion order
  (`mapGet`/`mapSet`/`mapDelete` below), JS `Set` objects as lists.
* The `setTimeout` swim-recovery callback of the `moveToLilyPad` handler
  is modelled as a separate `swimClearFire` event (`swimClearHandler`);
  the handler returns the scheduled `(playerId, delayMs)` pairs that the
  server registers with `setTimeout`.
* Infinity (returned by `getRequiredXPForLevel` at the level cap) is
  modelled with `WithTop ℕ`.
-/

/-! ## Progression model (lines 196-225 of index.js) -/

/-- `getRequiredXPForLevel` (index.js lines 196-205):
`if (level >= 10) return Infinity; return (level * 3) + 2;` -/
def getRequiredXPForLevel (level : ℕ) : WithTop ℕ :=
  if 10 ≤ level then ⊤ else WithTop.some (level * 3 + 2)

/-- Loop body of `getLevelFromXP` (index.js lines 207-220).  The JS
`while (level < 10)` loop runs at most 9 iterations (level goes 1..9),
so fuel 9 is exact: fuel exhaustion coincides with the loop exiting and
the function returning 10. -/
def getLevelFromXPGo : ℕ → ℕ → WithTop ℕ → ℕ → ℕ
  | 0, _, _, _ => 10
  | fuel+1, level, xpRequired, xp =>
    if level < 10 then
      let xpRequired2 := xpRequired + getRequiredXPForLevel level
      if WithTop.some xp < xpRequired2 then level
      else getLevelFromXPGo fuel (level+1) xpRequired2 xp
    else 10

/-- `getLevelFromXP` (index.js lines 207-220): starts at `level = 1`,
`xpRequired = 0`, accumulates `getRequiredXPForLevel(level)` and returns
the first level whose cumulative requirement exceeds `xp`; returns 10
when the loop exits. -/
def getLevelFromXP (xp : ℕ) : ℕ := getLevelFromXPGo 9 1 (WithTop.some 0) xp

/-- `getSizeForLevel` (index.js lines 222-225): `0.7 + ((level - 1) * 0.05)`. -/
def getSizeForLevel (level : ℕ) : ℚ := 7/10 + ((level : ℚ) - 1) * (5/100)

/-! ## Data model -/

/-- A lily pad (generated once at startup; immutable afterwards). -/
structure LilyPad where
  id : String
  x : ℚ
  y : ℚ
  isSpawnPoint : Bool
deriving Repr, DecidableEq

/-- A fly.  The kinematic fields are carried but never computed by the
handlers modelled here (fresh flies produced by `generateFly()` enter the
model as explicit arguments, since they are random). -/
structure Fly where
  id : String
  x : ℚ
  y : ℚ
  angle : ℚ
  angularVelocity : ℚ
  speed : ℚ
  nextDirectionChange : ℤ
deriving Repr, DecidableEq

/-- A player record (index.js lines 260-272). -/
structure Player where
  id : String
  name : String
  x : ℚ
  y : ℚ
  size : ℚ
  health : ℤ
  maxHealth : ℤ
  isSwimming : Bool
  lastPushTime : ℤ
  level : ℕ
  xp : ℕ
deriving Repr, DecidableEq

/-- JS `Map.get`, over an insertion-ordered association list. -/
def mapGet {α : Type} : List (String × α) → String → Option α
  | [], _ => none
  | (k2, v) :: rest, k => if k2 = k then some v else mapGet rest k

/-- JS `Map.set`: updates the existing entry in place, else appends. -/
def mapSet {α : Type} : List (String × α) → String → α → List (String × α)
  | [], k, v => [(k, v)]
  | (k2, v2) :: rest, k, v =>
    if k2 = k then (k, v) :: rest else (k2, v2) :: mapSet rest k v

/-- JS `Map.delete`. -/
def mapDelete {α : Type} : List (String × α) → String → List (String × α)
  | [], _ => []
  | (k2, v2) :: rest, k =>
    if k2 = k then mapDelete rest k else (k2, v2) :: mapDelete rest k

/-- JS `Array.prototype.findIndex` (restricted to a Bool predicate). -/
def jsFindIndex {α : Type} (p : α → Bool) : List α → Option ℕ
  | [] => none
  | a :: l => if p a then some 0 else (jsFindIndex p l).map (· + 1)

/-- JS `a || b` on strings (`""` is falsy). -/
def jsOrString (a : Option String) (b : String) : String :=
  match a with
  | some s => if s = "" then b else s
  | none => b

/-- The authoritative server state: `gameState` (index.js lines 18-26)
plus the module-level `playerNames` map and `takenUsernames` set
(lines 29-30). -/
structure ServerState where
  players : List (String × Player)
  flies : List Fly
  lilyPads : List LilyPad
  playerNames : List (String × String)
  takenUsernames : List String
deriving Repr, DecidableEq

/-- Per-connection state: the socket id, `socket.playerName`
(line 252) and the per-connection `lastAttackTime` cooldown map
(line 231 — note it is declared inside `io.on('connection', ...)`,
hence one map per connection). -/
structure ConnState where
  socketId : String
  playerName : Option String
  lastAttackTime : List (String × ℤ)
deriving Repr, DecidableEq

/-- Outbound events emitted by the handlers (payloads kept to the fields
the claims talk about). -/
inductive GameEvent where
  | gameStateSnapshot
  | playerJoined (id : String)
  | playerHealthUpdate (id : String) (health maxHealth : ℤ)
  | playerMoved (id : String) (x y : ℚ) (health maxHealth : ℤ)
  | playerPushed (id pushedBy : String) (fromX fromY : ℚ)
  | playerCanMove (id : String)
  | playerDamaged (id : String) (health maxHealth damage : ℤ)
  | playerDied (id : String)
  | flyCaught (flyId playerId : String)
  | newFly (id : String)
  | playerDisconnected (id : String)
deriving Repr, DecidableEq

/-- Result of one handler invocation: the new server state, the updated
connection state, the swim-recovery timers registered via `setTimeout`
(player id, delay in ms), and the emitted events in order. -/
structure StepOut where
  state : ServerState
  conn : ConnState
  scheduled : List (String × ℤ)
  events : List GameEvent
deriving Repr, DecidableEq

/-! ## Handlers (translated from index.js) -/

/-- `findUnoccupiedLilyPad` (index.js lines 184-194): pads whose
coordinates coincide with no player's are candidates; one is picked at
random (the random index enters as `r`, reduced mod the candidate
count); if all pads are occupied the first pad is the fallback.
Returns `none` exactly when `lilyPads` is empty (in JS the caller would
then crash on `undefined.x`). -/
def findUnoccupiedLilyPad (s : ServerState) (r : ℕ) : Option LilyPad :=
  let unoccupied := s.lilyPads.filter
    (fun pad => decide (¬ ∃ pr ∈ s.players, pr.2.x = pad.x ∧ pr.2.y = pad.y))
  if unoccupied.isEmpty then s.lilyPads.head?
  else unoccupied.get? (r % unoccupied.length)

/-- The fresh player record built by the `newPlayer` / `respawn`
handlers (index.js lines 260-272 and 299-311): level-1 defaults. -/
def freshPlayer (sockId name : String) (spawnPad : LilyPad) : Player :=
  { id := sockId, name := name, x := spawnPad.x, y := spawnPad.y,
    size := 7/10, health := 50, maxHealth := 50, isSwimming := false,
    lastPushTime := 0, level := 1, xp := 0 }

/-- `newPlayer` handler (index.js lines 242-292).  A too-long or taken
name forcibly disconnects the caller with no registry change; otherwise
the name is reserved, stored, and a level-1 player is registered on an
unoccupied pad.  `none` models the JS crash when `lilyPads` is empty. -/
def newPlayerHandler (s : ServerState) (c : ConnState) (name : String) (r : ℕ) :
    Option StepOut :=
  if name.length > 16 ∨ s.takenUsernames.contains name then
    some ⟨s, c, [], []⟩
  else
    let taken2 := if s.takenUsernames.contains name then s.takenUsernames
                  else s.takenUsernames ++ [name]
    let c2 := { c with playerName := some name }
    match findUnoccupiedLilyPad s r with
    | none => none
    | some spawnPad =>
      let player := freshPlayer c.socketId name spawnPad
      some ⟨{ s with players := mapSet s.players c.socketId player,
                     playerNames := mapSet s.playerNames c.socketId name,
                     takenUsernames := taken2 },
            c2, [],
            [GameEvent.gameStateSnapshot, GameEvent.playerJoined c.socketId,
             GameEvent.playerHealthUpdate c.socketId 50 50]⟩

/-- `respawn` handler (index.js lines 295-323): always rebuilds a
level-1 player for the caller; the name falls back from the existing
registry entry to the stored `playerNames` entry to `'Anonymous'` via
JS `||`.  `none` models the JS crash when `lilyPads` is empty. -/
def respawnHandler (s : ServerState) (c : ConnState) (r : ℕ) : Option StepOut :=
  match findUnoccupiedLilyPad s r with
  | none => none
  | some spawnPad =>
    let existing := mapGet s.players c.socketId
    let name := jsOrString (existing.map (·.name))
                  (jsOrString (mapGet s.playerNames c.socketId) "Anonymous")
    let player := freshPlayer c.socketId name spawnPad
    some ⟨{ s with players := mapSet s.players c.socketId player },
          c, [],
          [GameEvent.playerJoined c.socketId,
           GameEvent.playerHealthUpdate c.socketId 50 50]⟩

/-- The push condition of the `moveToLilyPad` handler (index.js lines
342-348): another player standing on the target pad, strictly smaller
than the mover, not already swimming, last pushed more than 2000 ms ago. -/
def pushCond (sockId : String) (mover : Player) (targetPad : LilyPad) (now : ℤ)
    (pr : String × Player) : Prop :=
  pr.1 ≠ sockId ∧ pr.2.x = targetPad.x ∧ pr.2.y = targetPad.y ∧
  pr.2.size < mover.size ∧ pr.2.isSwimming = false ∧ 2000 < now - pr.2.lastPushTime

instance (sockId mover targetPad now pr) :
    Decidable (pushCond sockId mover targetPad now pr) := by
  unfold pushCond; infer_instance

/-- The mutation performed by the push loop of the `moveToLilyPad`
handler (index.js lines 342-369) on the player registry: every entry
satisfying `pushCond` becomes swimming with push timestamp `now`. -/
def pushMap (sockId : String) (mover : Player) (targetPad : LilyPad) (now : ℤ)
    (ps : List (String × Player)) : List (String × Player) :=
  ps.map (fun pr =>
    (pr.1, if pushCond sockId mover targetPad now pr
           then { pr.2 with isSwimming := true, lastPushTime := now }
           else pr.2))

/-- `moveToLilyPad` handler (index.js lines 326-395).  No-op when the
mover is unknown, swimming, or the pad id is unknown.  Otherwise every
player satisfying `pushCond` is pushed into the water (swimming, push
timestamp `now`, a 1000 ms recovery timer is scheduled and a
`playerPushed` event emitted), then the mover teleports to the pad with
health/maxHealth explicitly preserved. -/
def moveToLilyPadHandler (s : ServerState) (c : ConnState) (padId : String)
    (now : ℤ) : StepOut :=
  match mapGet s.players c.socketId with
  | none => ⟨s, c, [], []⟩
  | some player =>
    if player.isSwimming then ⟨s, c, [], []⟩
    else
      match s.lilyPads.find? (fun pad => decide (pad.id = padId)) with
      | none => ⟨s, c, [], []⟩
      | some targetPad =>
        let currentHealth := player.health
        let currentMaxHealth := player.maxHealth
        let players1 := pushMap c.socketId player targetPad now s.players
        let pushed := s.players.filter
          (fun pr => decide (pushCond c.socketId player targetPad now pr))
        let movedPlayer := { player with
          x := targetPad.x, y := targetPad.y,
          health := currentHealth, maxHealth := currentMaxHealth }
        ⟨{ s with players := mapSet players1 c.socketId movedPlayer }, c,
         pushed.map (fun pr => (pr.1, (1000 : ℤ))),
         (pushed.map (fun pr => GameEvent.playerPushed pr.1 c.socketId pr.2.x pr.2.y)) ++
           [GameEvent.playerMoved c.socketId targetPad.x targetPad.y
              currentHealth currentMaxHealth,
            GameEvent.playerHealthUpdate c.socketId currentHealth currentMaxHealth]⟩

/-- The swim-recovery `setTimeout` callback (index.js lines 355-360),
modelled at registry level: if the pushed player is still swimming,
clear the flag and broadcast `playerCanMove`. -/
def swimClearHandler (s : ServerState) (c : ConnState) (pid : String) : StepOut :=
  match mapGet s.players pid with
  | some p =>
    if p.isSwimming then
      ⟨{ s with players := mapSet s.players pid { p with isSwimming := false } },
       c, [], [GameEvent.playerCanMove pid]⟩
    else ⟨s, c, [], []⟩
  | none => ⟨s, c, [], []⟩

/-- `tongueAttack` handler (index.js lines 398-440).  No-op when
attacker or target is unknown or the *per-connection* cooldown for this
target id is still running (less than 500 ms since this connection last
damaged this target).  Otherwise the target loses exactly 10 health
(floored at 0); at 0 the target is removed and `playerDied` fires, else
`playerDamaged`.  (The `typeof target.health !== 'number'` repair branch
of the source is unreachable in this model, where health is always a
number.) -/
def tongueAttackHandler (s : ServerState) (c : ConnState) (targetId : String)
    (now : ℤ) : StepOut :=
  match mapGet s.players c.socketId, mapGet s.players targetId with
  | some _, some target =>
    let lastAttack := (mapGet c.lastAttackTime targetId).getD 0
    if now - lastAttack < 500 then ⟨s, c, [], []⟩
    else
      let c2 := { c with lastAttackTime := mapSet c.lastAttackTime targetId now }
      let newHealth := max 0 (target.health - 10)
      if newHealth ≤ 0 then
        ⟨{ s with players := mapDelete s.players targetId }, c2, [],
         [GameEvent.playerDied targetId]⟩
      else
        ⟨{ s with players := mapSet s.players targetId { target with health := newHealth } },
         c2, [],
         [GameEvent.playerDamaged targetId newHealth target.maxHealth 10]⟩
  | _, _ => ⟨s, c, [], []⟩

/-- `catchFly` handler (index.js lines 443-485).  No-op when the caller
or the fly id is unknown.  Otherwise the fly at the found index is
spliced out, the caller gains 1 xp, the level is recomputed, and on a
level-up size/maxHealth grow and health is reset to the new maximum;
finally the freshly generated replacement fly (`newFly`, random in the
source) is appended. -/
def catchFlyHandler (s : ServerState) (c : ConnState) (flyId : String)
    (newFly : Fly) : StepOut :=
  match mapGet s.players c.socketId with
  | none => ⟨s, c, [], []⟩
  | some player =>
    match jsFindIndex (fun fly => decide (fly.id = flyId)) s.flies with
    | none => ⟨s, c, [], []⟩
    | some flyIndex =>
      let flies1 := s.flies.eraseIdx flyIndex
      let xp2 := player.xp + 1
      let newLevel := getLevelFromXP xp2
      let didLevelUp := player.level < newLevel
      let player2 :=
        if didLevelUp then
          { player with
            xp := xp2, level := newLevel,
            size := getSizeForLevel newLevel,
            maxHealth := 50 + ((newLevel : ℤ) - 1) * 10,
            health := 50 + ((newLevel : ℤ) - 1) * 10 }
        else { player with xp := xp2 }
      ⟨{ s with players := mapSet s.players c.socketId player2,
                flies := flies1 ++ [newFly] }, c, [],
       [GameEvent.flyCaught flyId c.socketId, GameEvent.newFly newFly.id]⟩

/-- `disconnect` handler (index.js lines 488-498).  Everything — the
registry removal, the `playerNames` cleanup, the username release and
the broadcast — is guarded by `gameState.players.has(socket.id)`.
(`socket.playerName` is falsy for `undefined` and for `""`.) -/
def disconnectHandler (s : ServerState) (c : ConnState) : StepOut :=
  if (mapGet s.players c.socketId).isSome then
    let taken2 :=
      match c.playerName with
      | some n => if n = "" then s.takenUsernames
                  else s.takenUsernames.filter (fun u => decide (u ≠ n))
      | none => s.takenUsernames
    ⟨{ s with players := mapDelete s.players c.socketId,
              playerNames := mapDelete s.playerNames c.socketId,
              takenUsernames := taken2 },
     c, [], [GameEvent.playerDisconnected c.socketId]⟩
  else ⟨s, c, [], []⟩

/-- One inbound event, with all the data the corresponding handler
consumes (timestamps and random draws made explicit). -/
inductive InEvent where
  | newPlayer (name : String) (r : ℕ)
  | respawn (r : ℕ)
  | moveToLilyPad (padId : String) (now : ℤ)
  | tongueAttack (targetId : String) (now : ℤ)
  | catchFly (flyId : String) (newFly : Fly)
  | disconnect
  | swimClearFire (pid : String)
deriving Repr, DecidableEq

/-- Dispatcher over all handlers.  `none` models the JS crash of the
join/respawn handlers when the pad list is empty (impossible after world
generation, which always creates the center pad). -/
def handle (s : ServerState) (c : ConnState) : InEvent → Option StepOut
  | .newPlayer name r => newPlayerHandler s c name r
  | .respawn r => respawnHandler s c r
  | .moveToLilyPad padId now => some (moveToLilyPadHandler s c padId now)
  | .tongueAttack targetId now => some (tongueAttackHandler s c targetId now)
  | .catchFly flyId newFly => some (catchFlyHandler s c flyId newFly)
  | .disconnect => some (disconnectHandler s c)
  | .swimClearFire pid => some (swimClearHandler s c pid)

/-! ## Spec-side definitions (for the refinement claims C3/C9) -/

/-- Modelled from the spec: cumulative required XP for levels `1..n`,
i.e. `∑_{l=1..n} (3*l + 2)`. -/
def cumulativeXP : ℕ → ℕ
  | 0 => 0
  | n+1 => cumulativeXP n + (3 * (n+1) + 2)

/-- Linear search for the smallest level `L ≥ start` (within `fuel`
candidates) satisfying `p`, returning the cap 10 when none does. -/
def leastLevelAux (p : ℕ → Bool) : ℕ → ℕ → ℕ
  | _, 0 => 10
  | start, fuel+1 => if p start then start else leastLevelAux p (start+1) fuel

/-- Modelled from the spec, word for word (claim C3): "the smallest
level `L` such that the cumulative required XP for levels `1..L-1`
exceeds `xp`, capped at 10" — searching `L = 1..10`. -/
def specLevelFromXp (xp : ℕ) : ℕ :=
  leastLevelAux (fun L => decide (xp < cumulativeXP (L - 1))) 1 10

/-- The amended characterization: the smallest level `L ≤ 9` such that
the cumulative required XP for levels `1..L` exceeds `xp`, and the cap
10 when no such level exists. -/
def specLevelFromXpAmended (xp : ℕ) : ℕ :=
  leastLevelAux (fun L => decide (xp < cumulativeXP L)) 1 9

/-! ## Helper lemmas -/

theorem withTop_some_add (a b : ℕ) :
    (WithTop.some a + WithTop.some b : WithTop ℕ) = WithTop.some (a + b) := rfl

theorem withTop_some_lt (a b : ℕ) :
    (WithTop.some a < (WithTop.some b : WithTop ℕ)) ↔ a < b := WithTop.coe_lt_coe

/-- Closed form of `getLevelFromXP` by xp intervals. -/
def levelTable (xp : ℕ) : ℕ :=
  if xp < 5 then 1 else if xp < 13 then 2 else if xp < 24 then 3 else if xp < 38 then 4
  else if xp < 55 then 5 else if xp < 75 then 6 else if xp < 98 then 7 else if xp < 124 then 8
  else if xp < 153 then 9 else 10

theorem getLevelFromXP_eq (xp : ℕ) : getLevelFromXP xp = levelTable xp := by
  unfold getLevelFromXP levelTable
  norm_num [getLevelFromXPGo, getRequiredXPForLevel, withTop_some_add, withTop_some_lt]

theorem one_le_getLevelFromXP (xp : ℕ) : 1 ≤ getLevelFromXP xp := by
  rw [getLevelFromXP_eq]; unfold levelTable; split_ifs <;> omega

theorem mapGet_mem {α : Type} {ps : List (String × α)} {k : String} {v : α}
    (h : mapGet ps k = some v) : (k, v) ∈ ps := by
  induction ps with
  | nil => simp [mapGet] at h
  | cons hd tl ih =>
    obtain ⟨k2, v2⟩ := hd
    by_cases hk : k2 = k
    · subst hk
      simp [mapGet] at h
      subst h
      exact List.mem_cons_self _ _
    · simp [mapGet, hk] at h
      exact List.mem_cons_of_mem _ (ih h)

theorem mapGet_mapSet_self {α : Type} (ps : List (String × α)) (k : String) (v : α) :
    mapGet (mapSet ps k v) k = some v := by
  induction ps with
  | nil => simp [mapGet, mapSet]
  | cons hd tl ih =>
    obtain ⟨k2, v2⟩ := hd
    by_cases hk : k2 = k
    · simp [mapSet, hk, mapGet]
    · simp [mapSet, hk, mapGet, ih]

theorem mapGet_mapSet_ne {α : Type} (ps : List (String × α)) {k k2 : String} (v : α)
    (h : k2 ≠ k) : mapGet (mapSet ps k v) k2 = mapGet ps k2 := by
  have hne : k ≠ k2 := fun hh => h hh.symm
  induction ps with
  | nil => simp [mapGet, mapSet, hne]
  | cons hd tl ih =>
    obtain ⟨k3, v3⟩ := hd
    by_cases hk : k3 = k
    · subst hk
      simp [mapSet, mapGet, hne]
    · simp only [mapSet, if_neg hk, mapGet]
      by_cases hk2 : k3 = k2 <;> simp [hk2, ih]

theorem mapGet_mapDelete_self {α : Type} (ps : List (String × α)) (k : String) :
    mapGet (mapDelete ps k) k = none := by
  induction ps with
  | nil => simp [mapGet, mapDelete]
  | cons hd tl ih =>
    obtain ⟨k2, v2⟩ := hd
    by_cases hk : k2 = k <;> simp [mapDelete, hk, mapGet, ih]

/-- `mapGet` through a key-preserving value map. -/
theorem mapGet_map_keyfix {α β : Type} (f : String → α → β) (ps : List (String × α))
    (k : String) :
    mapGet (ps.map (fun pr => (pr.1, f pr.1 pr.2))) k = (mapGet ps k).map (f k) := by
  induction ps with
  | nil => simp [mapGet]
  | cons hd tl ih =>
    obtain ⟨k2, v2⟩ := hd
    by_cases hk : k2 = k
    · subst hk; simp [mapGet]
    · simp [mapGet, hk, ih]

theorem jsFindIndex_lt_length {α : Type} {p : α → Bool} {l : List α} {i : ℕ}
    (h : jsFindIndex p l = some i) : i < l.length := by
  induction l generalizing i with
  | nil => simp [jsFindIndex] at h
  | cons a t ih =>
    by_cases ha : p a
    · simp [jsFindIndex, ha] at h
      simp only [List.length_cons]
      omega
    · simp only [jsFindIndex, if_neg ha, Option.map_eq_some'] at h
      obtain ⟨j, hj, rfl⟩ := h
      have := ih hj
      simp only [List.length_cons]
      omega

theorem jsFindIndex_some_of_mem {α : Type} {p : α → Bool} {l : List α}
    (h : ∃ a ∈ l, p a = true) : ∃ i, jsFindIndex p l = some i := by
  induction l with
  | nil => simp at h
  | cons a t ih =>
    by_cases ha : p a
    · exact ⟨0, by simp [jsFindIndex, ha]⟩
    · obtain ⟨b, hb, hpb⟩ := h
      rcases List.mem_cons.1 hb with rfl | hbt
      · exact absurd hpb ha
      · obtain ⟨i, hi⟩ := ih ⟨b, hbt, hpb⟩
        exact ⟨i + 1, by simp [jsFindIndex, ha, hi]⟩

theorem eraseIdx_length {α : Type} (l : List α) (i : ℕ) (h : i < l.length) :
    (l.eraseIdx i).length = l.length - 1 := by
  induction l generalizing i with
  | nil => simp at h
  | cons a t ih =>
    cases i with
    | zero => simp
    | succ j =>
      simp only [List.length_cons] at h
      have hj : j < t.length := by omega
      simp only [List.eraseIdx_cons_succ, List.length_cons, ih j hj]
      omega

theorem specLevelFromXpAmended_eq (xp : ℕ) : specLevelFromXpAmended xp = levelTable xp := by
  unfold specLevelFromXpAmended levelTable
  norm_num [leastLevelAux, cumulativeXP]

theorem cumulativeXP_nine : cumulativeXP 9 = 153 := by decide

theorem levelTable_le_one (xp : ℕ) (h : xp < 5) : levelTable xp ≤ 1 := by
  unfold levelTable; repeat' split
  all_goals omega

theorem levelTable_le_two (xp : ℕ) (h : xp < 13) : levelTable xp ≤ 2 := by
  unfold levelTable; repeat' split
  all_goals omega

theorem levelTable_le_three (xp : ℕ) (h : xp < 24) : levelTable xp ≤ 3 := by
  unfold levelTable; repeat' split
  all_goals omega

theorem levelTable_le_four (xp : ℕ) (h : xp < 38) : levelTable xp ≤ 4 := by
  unfold levelTable; repeat' split
  all_goals omega

theorem levelTable_le_five (xp : ℕ) (h : xp < 55) : levelTable xp ≤ 5 := by
  unfold levelTable; repeat' split
  all_goals omega

theorem levelTable_le_six (xp : ℕ) (h : xp < 75) : levelTable xp ≤ 6 := by
  unfold levelTable; repeat' split
  all_goals omega

theorem levelTable_le_seven (xp : ℕ) (h : xp < 98) : levelTable xp ≤ 7 := by
  unfold levelTable; repeat' split
  all_goals omega

theorem levelTable_le_eight (xp : ℕ) (h : xp < 124) : levelTable xp ≤ 8 := by
  unfold levelTable; repeat' split
  all_goals omega

theorem levelTable_le_nine (xp : ℕ) (h : xp < 153) : levelTable xp ≤ 9 := by
  unfold levelTable; repeat' split
  all_goals omega

theorem levelTable_le_ten (xp : ℕ) : levelTable xp ≤ 10 := by
  unfold levelTable; repeat' split
  all_goals omega

theorem levelTable_saturates (xp : ℕ) (h : 153 ≤ xp) : levelTable xp = 10 := by
  have n1 : ¬ xp < 5 := by omega
  have n2 : ¬ xp < 13 := by omega
  have n3 : ¬ xp < 24 := by omega
  have n4 : ¬ xp < 38 := by omega
  have n5 : ¬ xp < 55 := by omega
  have n6 : ¬ xp < 75 := by omega
  have n7 : ¬ xp < 98 := by omega
  have n8 : ¬ xp < 124 := by omega
  have n9 : ¬ xp < 153 := by omega
  simp [levelTable, n1, n2, n3, n4, n5, n6, n7, n8, n9]

theorem levelTable_mono : Monotone levelTable := by
  intro a b hab
  by_cases h1 : b < 5
  · have hb : levelTable b = 1 := by simp [levelTable, h1]
    rw [hb]; exact levelTable_le_one a (by omega)
  by_cases h2 : b < 13
  · have hb : levelTable b = 2 := by simp [levelTable, h1, h2]
    rw [hb]; exact levelTable_le_two a (by omega)
  by_cases h3 : b < 24
  · have hb : levelTable b = 3 := by simp [levelTable, h1, h2, h3]
    rw [hb]; exact levelTable_le_three a (by omega)
  by_cases h4 : b < 38
  · have hb : levelTable b = 4 := by simp [levelTable, h1, h2, h3, h4]
    rw [hb]; exact levelTable_le_four a (by omega)
  by_cases h5 : b < 55
  · have hb : levelTable b = 5 := by simp [levelTable, h1, h2, h3, h4, h5]
    rw [hb]; exact levelTable_le_five a (by omega)
  by_cases h6 : b < 75
  · have hb : levelTable b = 6 := by simp [levelTable, h1, h2, h3, h4, h5, h6]
    rw [hb]; exact levelTable_le_six a (by omega)
  by_cases h7 : b < 98
  · have hb : levelTable b = 7 := by simp [levelTable, h1, h2, h3, h4, h5, h6, h7]
    rw [hb]; exact levelTable_le_seven a (by omega)
  by_cases h8 : b < 124
  · have hb : levelTable b = 8 := by simp [levelTable, h1, h2, h3, h4, h5, h6, h7, h8]
    rw [hb]; exact levelTable_le_eight a (by omega)
  by_cases h9 : b < 153
  · have hb : levelTable b = 9 := by simp [levelTable, h1, h2, h3, h4, h5, h6, h7, h8, h9]
    rw [hb]; exact levelTable_le_nine a (by omega)
  · rw [levelTable_saturates b (by omega)]
    exact levelTable_le_ten a

/-! ## Claims -/

/-- Claim C3, counterexample: at `xp = 0` the code returns level 1, but
"the smallest level L such that the cumulative required XP for levels
1..L-1 exceeds xp, capped at 10" is level 2 (for L = 1 the cumulative
requirement for levels 1..0 is 0, which does not exceed 0; for L = 2 it
is 5 > 0).  The spec's characterization is off by one. -/
theorem C3_counterexample_off_by_one :
    getLevelFromXP 0 = 1 ∧ specLevelFromXp 0 = 2 ∧ getLevelFromXP 0 ≠ specLevelFromXp 0 := by
  decide

/-- Claim C3 (amended): for every `xp ≥ 0`, `levelFromXp(xp)` equals the
smallest level `L` such that the cumulative required XP for levels
`1..L` exceeds `xp`, capped at 10. -/
theorem C3_levelFromXp_characterization (xp : ℕ) :
    getLevelFromXP xp = specLevelFromXpAmended xp := by
  rw [getLevelFromXP_eq, specLevelFromXpAmended_eq]

/-- Claim C4: for levels `1..9` (below the cap) the requirement is
`3*L + 2`; at the cap (level ≥ 10) the requirement is infinite, and
consequently xp beyond the cumulative cap requirement (153, the
requirement through level 10) never advances the level past 10. -/
theorem C4_xpRequiredForLevel_formula_and_cap :
    (∀ L : ℕ, 1 ≤ L → L < 10 → getRequiredXPForLevel L = WithTop.some (3 * L + 2))
    ∧ (∀ L : ℕ, 10 ≤ L → getRequiredXPForLevel L = ⊤)
    ∧ (∀ xp : ℕ, getLevelFromXP xp ≤ 10)
    ∧ (∀ xp : ℕ, cumulativeXP 9 ≤ xp →
        getLevelFromXP xp = getLevelFromXP (cumulativeXP 9) ∧ getLevelFromXP xp = 10) := by
  refine ⟨?_, ?_, ?_, ?_⟩
  · intro L h1 h10
    unfold getRequiredXPForLevel
    rw [if_neg (by omega), Nat.mul_comm]
  · intro L h
    unfold getRequiredXPForLevel
    rw [if_pos h]
  · intro xp
    rw [getLevelFromXP_eq]; exact levelTable_le_ten xp
  · intro xp h
    rw [cumulativeXP_nine] at h
    rw [getLevelFromXP_eq, getLevelFromXP_eq, cumulativeXP_nine]
    rw [levelTable_saturates xp h, levelTable_saturates 153 (by omega)]
    exact ⟨rfl, rfl⟩

/-- Witness for C4 at concrete inputs. -/
theorem C4_xpRequiredForLevel_formula_and_cap_witness :
    getRequiredXPForLevel 4 = WithTop.some 14 ∧ getRequiredXPForLevel 12 = ⊤
    ∧ getLevelFromXP 7 ≤ 10 ∧ getLevelFromXP 200 = 10 :=
  ⟨C4_xpRequiredForLevel_formula_and_cap.1 4 (by norm_num) (by norm_num),
   C4_xpRequiredForLevel_formula_and_cap.2.1 12 (by norm_num),
   C4_xpRequiredForLevel_formula_and_cap.2.2.1 7,
   (C4_xpRequiredForLevel_formula_and_cap.2.2.2 200 (by decide)).2⟩

/-- Claim C9: `levelFromXp` is monotonically non-decreasing, returns 10
for every xp at or above the cumulative requirement through level 10
(`cumulativeXP 9 = 153`), and never returns a level above 10. -/
theorem C9_levelFromXp_monotone_saturates :
    Monotone getLevelFromXP
    ∧ (∀ xp : ℕ, cumulativeXP 9 ≤ xp → getLevelFromXP xp = 10)
    ∧ (∀ xp : ℕ, getLevelFromXP xp ≤ 10) := by
  refine ⟨?_, ?_, ?_⟩
  · rw [show getLevelFromXP = levelTable from funext getLevelFromXP_eq]
    exact levelTable_mono
  · intro xp h
    rw [cumulativeXP_nine] at h
    rw [getLevelFromXP_eq]
    exact levelTable_saturates xp h
  · intro xp
    rw [getLevelFromXP_eq]; exact levelTable_le_ten xp

/-- Witness for C9 at concrete inputs. -/
theorem C9_levelFromXp_monotone_saturates_witness :
    getLevelFromXP 3 ≤ getLevelFromXP 7 ∧ getLevelFromXP 999 = 10 ∧ getLevelFromXP 12 ≤ 10 :=
  ⟨C9_levelFromXp_monotone_saturates.1 (by norm_num : (3:ℕ) ≤ 7),
   C9_levelFromXp_monotone_saturates.2.1 999 (by decide),
   C9_levelFromXp_monotone_saturates.2.2 12⟩

/-- The center spawn pad that `generateLilyPads` always creates
(index.js lines 41-47), at world center (2400/2, 1800/2). -/
def padCenter : LilyPad := ⟨"pad-center", 1200, 900, true⟩

/-- A second, ordinary pad for concrete scenarios. -/
def padSide : LilyPad := ⟨"pad-2-3", 300, 400, false⟩

/-- Claim C2 (code bug in the disconnect handler): a connection whose
player already died (was removed from the registry by `tongueAttack`)
still holds the name reservation `"N"` in `takenUsernames` and the
`playerNames` entry.  The spec says disconnect releases the reservation
and broadcasts the removal, but the whole handler body is guarded by
`gameState.players.has(socket.id)`, which is false after death: the
handler does nothing, `"N"` stays reserved forever and no
`playerDisconnected` event is emitted. -/
theorem C2_disconnect_after_death_keeps_name_reserved :
    disconnectHandler ⟨[], [], [padCenter], [("s1", "N")], ["N"]⟩ ⟨"s1", some "N", []⟩
      = ⟨⟨[], [], [padCenter], [("s1", "N")], ["N"]⟩, ⟨"s1", some "N", []⟩, [], []⟩
    ∧ "N" ∈ (disconnectHandler ⟨[], [], [padCenter], [("s1", "N")], ["N"]⟩
        ⟨"s1", some "N", []⟩).state.takenUsernames
    ∧ (disconnectHandler ⟨[], [], [padCenter], [("s1", "N")], ["N"]⟩
        ⟨"s1", some "N", []⟩).events = [] := by
  refine ⟨rfl, ?_, rfl⟩
  decide

/-- Claim C10: a `respawn` event never fails (as long as the world has
been generated, i.e. the pad list is nonempty — generation always
creates the center pad): it registers a fresh player at level-1 defaults
(size 0.7, health 50/50, level 1, xp 0, not swimming) on the pad chosen
by the unoccupied-pad policy, and when neither a registry entry nor a
stored name exists the name falls back to "Anonymous". -/
theorem C10_respawn_never_fails_defaults (s : ServerState) (c : ConnState) (r : ℕ)
    (hPads : s.lilyPads ≠ []) :
    ∃ out pad pl, respawnHandler s c r = some out
      ∧ findUnoccupiedLilyPad s r = some pad
      ∧ mapGet out.state.players c.socketId = some pl
      ∧ pl.size = 7/10 ∧ pl.health = 50 ∧ pl.maxHealth = 50
      ∧ pl.level = 1 ∧ pl.xp = 0 ∧ pl.isSwimming = false
      ∧ pl.x = pad.x ∧ pl.y = pad.y
      ∧ (mapGet s.players c.socketId = none → mapGet s.playerNames c.socketId = none →
          pl.name = "Anonymous") := by
  obtain ⟨pad, hpad⟩ : ∃ pad, findUnoccupiedLilyPad s r = some pad := by
    unfold findUnoccupiedLilyPad
    by_cases he : (s.lilyPads.filter
        (fun pad => decide (¬ ∃ pr ∈ s.players, pr.2.x = pad.x ∧ pr.2.y = pad.y))).isEmpty
    · rw [if_pos he]
      cases hl : s.lilyPads with
      | nil => exact absurd hl hPads
      | cons a t => exact ⟨a, rfl⟩
    · rw [if_neg he]
      have hne : s.lilyPads.filter
          (fun pad => decide (¬ ∃ pr ∈ s.players, pr.2.x = pad.x ∧ pr.2.y = pad.y)) ≠ [] := by
        intro hh
        rw [hh] at he
        exact he rfl
      have hlen := List.length_pos.mpr hne
      exact ⟨_, List.get?_eq_get (Nat.mod_lt r hlen)⟩
  set nm := jsOrString ((mapGet s.players c.socketId).map (·.name))
    (jsOrString (mapGet s.playerNames c.socketId) "Anonymous") with hnm
  refine ⟨⟨{ s with players := mapSet s.players c.socketId (freshPlayer c.socketId nm pad) },
      c, [], [GameEvent.playerJoined c.socketId, GameEvent.playerHealthUpdate c.socketId 50 50]⟩,
    pad, freshPlayer c.socketId nm pad,
    ?_, hpad, ?_, rfl, rfl, rfl, rfl, rfl, rfl, rfl, rfl, ?_⟩
  · unfold respawnHandler
    rw [hpad]
  · exact mapGet_mapSet_self _ _ _
  · intro h1 h2
    show nm = "Anonymous"
    rw [hnm, h1, h2]
    rfl

/-- Witness for C10: a state with one pad and no players: the respawned
player appears with the defaults and the name "Anonymous". -/
theorem C10_respawn_never_fails_defaults_witness :
    ∃ out pad pl, respawnHandler ⟨[], [], [padCenter], [], []⟩ ⟨"s9", none, []⟩ 0 = some out
      ∧ findUnoccupiedLilyPad ⟨[], [], [padCenter], [], []⟩ 0 = some pad
      ∧ mapGet out.state.players "s9" = some pl
      ∧ pl.size = 7/10 ∧ pl.health = 50 ∧ pl.maxHealth = 50
      ∧ pl.level = 1 ∧ pl.xp = 0 ∧ pl.isSwimming = false
      ∧ pl.x = pad.x ∧ pl.y = pad.y
      ∧ (mapGet ([] : List (String × Player)) "s9" = none →
          mapGet ([] : List (String × String)) "s9" = none → pl.name = "Anonymous") := by
  exact C10_respawn_never_fails_defaults ⟨[], [], [padCenter], [], []⟩ ⟨"s9", none, []⟩ 0
    (by decide)

/-- Claim C8: `moveToLilyPad` is a no-op (identical state, no events, no
timers) when the mover is unknown, swimming, or the pad id is unknown;
on success the mover's position becomes exactly the destination pad's
coordinates while health and maxHealth are unchanged. -/
theorem C8_move_noop_and_frame (s : ServerState) (c : ConnState) (padId : String)
    (now : ℤ) :
    (mapGet s.players c.socketId = none →
      moveToLilyPadHandler s c padId now = ⟨s, c, [], []⟩)
    ∧ (∀ p, mapGet s.players c.socketId = some p → p.isSwimming = true →
        moveToLilyPadHandler s c padId now = ⟨s, c, [], []⟩)
    ∧ (∀ p, mapGet s.players c.socketId = some p →
        s.lilyPads.find? (fun pad => decide (pad.id = padId)) = none →
        moveToLilyPadHandler s c padId now = ⟨s, c, [], []⟩)
    ∧ (∀ p pad, mapGet s.players c.socketId = some p → p.isSwimming = false →
        s.lilyPads.find? (fun pad2 => decide (pad2.id = padId)) = some pad →
        ∃ p2, mapGet (moveToLilyPadHandler s c padId now).state.players c.socketId = some p2
          ∧ p2.x = pad.x ∧ p2.y = pad.y
          ∧ p2.health = p.health ∧ p2.maxHealth = p.maxHealth) := by
  refine ⟨?_, ?_, ?_, ?_⟩
  · intro h
    unfold moveToLilyPadHandler
    rw [h]
  · intro p hp hsw
    unfold moveToLilyPadHandler
    rw [hp]
    simp [hsw]
  · intro p hp hfind
    unfold moveToLilyPadHandler
    rw [hp]
    cases hsw : p.isSwimming with
    | true => simp [hsw]
    | false => simp [hsw, hfind]
  · intro p pad hp hsw hfind
    unfold moveToLilyPadHandler
    rw [hp]
    simp only [hsw, Bool.false_eq_true, if_false, hfind]
    exact ⟨_, mapGet_mapSet_self _ _ _, rfl, rfl, rfl, rfl⟩

theorem mapGet_mapDelete_ne {α : Type} (ps : List (String × α)) {k k2 : String}
    (h : k2 ≠ k) : mapGet (mapDelete ps k) k2 = mapGet ps k2 := by
  induction ps with
  | nil => simp [mapDelete]
  | cons hd tl ih =>
    obtain ⟨k3, v3⟩ := hd
    by_cases hk : k3 = k
    · subst hk
      have : ¬ k3 = k2 := fun hh => h (hh.symm)
      simp [mapDelete, mapGet, this, ih]
    · simp only [mapDelete, if_neg hk, mapGet]
      by_cases hk2 : k3 = k2 <;> simp [hk2, ih]

theorem jsFindIndex_eq_none {α : Type} {p : α → Bool} {l : List α}
    (h : ∀ a ∈ l, p a = false) : jsFindIndex p l = none := by
  induction l with
  | nil => rfl
  | cons a t ih =>
    have ha := h a (List.mem_cons_self a t)
    simp [jsFindIndex, ha, ih (fun b hb => h b (List.mem_cons_of_mem a hb))]

/-- Claim C6: a `catchFly` event from a registered player naming a fly
id present in the population removes exactly the named fly (the first
one with that id) and appends exactly the freshly generated one, leaving
the population size unchanged; an unknown fly id leaves the state
unchanged. -/
theorem C6_fly_population_invariant (s : ServerState) (c : ConnState) (flyId : String)
    (newFly : Fly) (p : Player) (hp : mapGet s.players c.socketId = some p) :
    ((∃ fly ∈ s.flies, fly.id = flyId) →
      (catchFlyHandler s c flyId newFly).state.flies.length = s.flies.length
      ∧ ∃ i, jsFindIndex (fun fly => decide (fly.id = flyId)) s.flies = some i
          ∧ (catchFlyHandler s c flyId newFly).state.flies = s.flies.eraseIdx i ++ [newFly])
    ∧ ((∀ fly ∈ s.flies, fly.id ≠ flyId) →
        (catchFlyHandler s c flyId newFly).state = s) := by
  constructor
  · intro hex
    obtain ⟨fly, hfly, hid⟩ := hex
    subst hid
    have hex2 : ∃ a ∈ s.flies, (fun fly2 => decide (fly2.id = fly.id)) a = true :=
      ⟨fly, hfly, by simp⟩
    obtain ⟨i, hi⟩ := jsFindIndex_some_of_mem hex2
    have hlt := jsFindIndex_lt_length hi
    unfold catchFlyHandler
    rw [hp, hi]
    have hlen : 0 < s.flies.length := by omega
    refine ⟨?_, i, rfl, rfl⟩
    show (s.flies.eraseIdx i ++ [newFly]).length = s.flies.length
    rw [List.length_append, eraseIdx_length s.flies i hlt]
    simp only [List.length_singleton]
    omega
  · intro hnone
    have hfind : jsFindIndex (fun fly => decide (fly.id = flyId)) s.flies = none :=
      jsFindIndex_eq_none (fun a ha => by simp [hnone a ha])
    unfold catchFlyHandler
    rw [hp, hfind]

/-- Flies and a catcher for the C6 witness. -/
def fly1 : Fly := ⟨"f1", 100, 100, 0, 0, 3, 0⟩

def fly2 : Fly := ⟨"f2", 200, 150, 1, 0, 5, 0⟩

def flyNew : Fly := ⟨"f9", 300, 300, 2, 0, 4, 0⟩

def frogCatcher : Player := ⟨"c1", "Cat", 1200, 900, 1, 50, 50, false, 0, 1, 1⟩

def stateCatch : ServerState :=
  ⟨[("c1", frogCatcher)], [fly1, fly2], [padCenter], [("c1", "Cat")], ["Cat"]⟩

/-- Witness for C6: catching fly `"f1"` out of `[fly1, fly2]`. -/
theorem C6_fly_population_invariant_witness :
    (catchFlyHandler stateCatch ⟨"c1", some "Cat", []⟩ "f1" flyNew).state.flies.length
      = stateCatch.flies.length
    ∧ ∃ i, jsFindIndex (fun fly => decide (fly.id = "f1")) stateCatch.flies = some i
        ∧ (catchFlyHandler stateCatch ⟨"c1", some "Cat", []⟩ "f1" flyNew).state.flies
            = stateCatch.flies.eraseIdx i ++ [flyNew] :=
  (C6_fly_population_invariant stateCatch ⟨"c1", some "Cat", []⟩ "f1" flyNew frogCatcher
    (by decide)).1 (by decide)

/-- Players and state for the C1 scenario: two attackers `"a"`, `"b"`
and a target `"t"`. -/
def frogAtkA : Player := ⟨"a", "A", 1200, 900, 1, 50, 50, false, 0, 1, 0⟩

def frogAtkB : Player := ⟨"b", "B", 300, 400, 1, 50, 50, false, 0, 1, 0⟩

def frogTgt : Player := ⟨"t", "T", 300, 400, 1, 50, 50, false, 0, 1, 0⟩

def stateAttack : ServerState :=
  ⟨[("a", frogAtkA), ("b", frogAtkB), ("t", frogTgt)], [], [padCenter, padSide],
   [("a", "A"), ("b", "B"), ("t", "T")], ["A", "B", "T"]⟩

/-- Claim C1, counterexample: the 500 ms cooldown is tracked in a map
created per *connection* (`const lastAttackTime = new Map()` inside
`io.on('connection')`), so two attacks on the same target 300 ms apart
from two different connections are BOTH applied: the target's health
goes 50 → 40 → 30, and the second attack is not a no-op.  The claim
says the second should have been silently dropped regardless of which
connection attacked. -/
theorem C1_counterexample_cross_connection_attacks_both_apply :
    (mapGet (tongueAttackHandler stateAttack ⟨"a", some "A", []⟩ "t" 10000).state.players
        "t").map (·.health) = some 40
    ∧ (mapGet (tongueAttackHandler
          (tongueAttackHandler stateAttack ⟨"a", some "A", []⟩ "t" 10000).state
          ⟨"b", some "B", []⟩ "t" 10300).state.players "t").map (·.health) = some 30
    ∧ tongueAttackHandler
          (tongueAttackHandler stateAttack ⟨"a", some "A", []⟩ "t" 10000).state
          ⟨"b", some "B", []⟩ "t" 10300
        ≠ ⟨(tongueAttackHandler stateAttack ⟨"a", some "A", []⟩ "t" 10000).state,
           ⟨"b", some "B", []⟩, [], []⟩ := by
  refine ⟨?_, ?_, ?_⟩ <;> decide

/-- Claim C1 (amended): the 500 ms cooldown is per attacking connection.
If the same connection lands two attacks on the same target id, the
first off cooldown and the second within 500 ms of it, then the second
is silently dropped with no change to the server state or the
connection's cooldown map, and the first decreased the target's health
by exactly 10 (whenever the target had more than 10 health; at 10 or
below the target dies and is removed instead). -/
theorem C1_attack_cooldown_per_connection (s : ServerState) (c : ConnState)
    (targetId : String) (t1 t2 : ℤ) (tgt : Player)
    (hA : (mapGet s.players c.socketId).isSome = true)
    (hT : mapGet s.players targetId = some tgt)
    (hCd : 500 ≤ t1 - (mapGet c.lastAttackTime targetId).getD 0)
    (hWin : t2 - t1 < 500) :
    tongueAttackHandler (tongueAttackHandler s c targetId t1).state
        (tongueAttackHandler s c targetId t1).conn targetId t2
      = ⟨(tongueAttackHandler s c targetId t1).state,
         (tongueAttackHandler s c targetId t1).conn, [], []⟩
    ∧ (10 < tgt.health →
        mapGet (tongueAttackHandler s c targetId t1).state.players targetId
          = some { tgt with health := tgt.health - 10 }) := by
  obtain ⟨att, hAtt⟩ := Option.isSome_iff_exists.mp hA
  have hnotlt : ¬ (t1 - (mapGet c.lastAttackTime targetId).getD 0 < 500) := by omega
  by_cases hdie : max 0 (tgt.health - 10) ≤ 0
  · have h1 : tongueAttackHandler s c targetId t1 =
        ⟨{ s with players := mapDelete s.players targetId },
         { c with lastAttackTime := mapSet c.lastAttackTime targetId t1 }, [],
         [GameEvent.playerDied targetId]⟩ := by
      unfold tongueAttackHandler
      rw [hAtt, hT]
      simp only [if_neg hnotlt, if_pos hdie]
    constructor
    · rw [h1]
      dsimp only
      unfold tongueAttackHandler
      by_cases hct : c.socketId = targetId
      · rw [hct, mapGet_mapDelete_self]
      · rw [mapGet_mapDelete_self, mapGet_mapDelete_ne s.players hct, hAtt]
    · intro hh
      exfalso
      have h3 : tgt.health - 10 ≤ max 0 (tgt.health - 10) := le_max_right _ _
      omega
  · have h1 : tongueAttackHandler s c targetId t1 =
        ⟨{ s with
             players := mapSet s.players targetId
               { tgt with health := max 0 (tgt.health - 10) } },
         { c with lastAttackTime := mapSet c.lastAttackTime targetId t1 }, [],
         [GameEvent.playerDamaged targetId (max 0 (tgt.health - 10)) tgt.maxHealth 10]⟩ := by
      unfold tongueAttackHandler
      rw [hAtt, hT]
      simp only [if_neg hnotlt, if_neg hdie]
    constructor
    · rw [h1]
      dsimp only
      unfold tongueAttackHandler
      by_cases hct : c.socketId = targetId
      · rw [hct]
        simp only [mapGet_mapSet_self, Option.getD_some]
        rw [if_pos hWin]
      · simp only [mapGet_mapSet_self, mapGet_mapSet_ne _ _ hct, hAtt, Option.getD_some]
        rw [if_pos hWin]
    · intro hh
      rw [h1]
      dsimp only
      rw [mapGet_mapSet_self]
      have hmax : max 0 (tgt.health - 10) = tgt.health - 10 := max_eq_right (by omega)
      rw [hmax]

/-- Witness for C1 (amended): connection `"a"` attacks `"t"` at t=1000
and again at t=1200; the second is a no-op and the first took the target
from 50 to 40 health. -/
theorem C1_attack_cooldown_per_connection_witness :
    tongueAttackHandler (tongueAttackHandler stateAttack ⟨"a", some "A", []⟩ "t" 1000).state
        (tongueAttackHandler stateAttack ⟨"a", some "A", []⟩ "t" 1000).conn "t" 1200
      = ⟨(tongueAttackHandler stateAttack ⟨"a", some "A", []⟩ "t" 1000).state,
         (tongueAttackHandler stateAttack ⟨"a", some "A", []⟩ "t" 1000).conn, [], []⟩
    ∧ mapGet (tongueAttackHandler stateAttack ⟨"a", some "A", []⟩ "t" 1000).state.players "t"
        = some { frogTgt with health := frogTgt.health - 10 } :=
  ⟨(C1_attack_cooldown_per_connection stateAttack ⟨"a", some "A", []⟩ "t" 1000 1200 frogTgt
      (by decide) (by decide) (by decide) (by decide)).1,
   (C1_attack_cooldown_per_connection stateAttack ⟨"a", some "A", []⟩ "t" 1000 1200 frogTgt
      (by decide) (by decide) (by decide) (by decide)).2 (by decide)⟩

/-- A mover standing on the center pad, for the C8 witness. -/
def frogMover : Player := ⟨"m", "Mover", 1200, 900, 1, 47, 50, false, 0, 1, 3⟩

def stateMove : ServerState :=
  ⟨[("m", frogMover)], [], [padCenter, padSide], [("m", "Mover")], ["Mover"]⟩

/-- Witness for C8: an unknown mover is a no-op, and the known mover
`"m"` hops to pad `"pad-2-3"` keeping health 47/50. -/
theorem C8_move_noop_and_frame_witness :
    moveToLilyPadHandler stateMove ⟨"zz", none, []⟩ "pad-2-3" 5000
      = ⟨stateMove, ⟨"zz", none, []⟩, [], []⟩
    ∧ ∃ p2, mapGet (moveToLilyPadHandler stateMove ⟨"m", some "Mover", []⟩
          "pad-2-3" 5000).state.players "m" = some p2
        ∧ p2.x = padSide.x ∧ p2.y = padSide.y
        ∧ p2.health = frogMover.health ∧ p2.maxHealth = frogMover.maxHealth :=
  ⟨(C8_move_noop_and_frame stateMove ⟨"zz", none, []⟩ "pad-2-3" 5000).1 (by decide),
   (C8_move_noop_and_frame stateMove ⟨"m", some "Mover", []⟩ "pad-2-3" 5000).2.2.2
     frogMover padSide (by decide) (by decide) (by decide)⟩


/-- Looking up a key after the push loop: the entry's value is updated
exactly when it satisfied `pushCond`. -/
theorem mapGet_pushMap (sockId : String) (mover : Player) (targetPad : LilyPad)
    (now : ℤ) (ps : List (String × Player)) (k : String) :
    mapGet (pushMap sockId mover targetPad now ps) k
      = (mapGet ps k).map (fun v =>
          if pushCond sockId mover targetPad now (k, v)
          then { v with isSwimming := true, lastPushTime := now } else v) := by
  induction ps with
  | nil => rfl
  | cons hd tl ih =>
    obtain ⟨k2, v2⟩ := hd
    by_cases hk : k2 = k
    · subst hk
      simp [pushMap, mapGet]
    · simp only [pushMap, List.map_cons, mapGet, if_neg hk]
      exact ih

/-- Claim C7: on a successful move, an occupant of the destination pad
(standing on it, i.e. at its coordinates and not already swimming in the
water) that is strictly smaller than the mover and whose last push was
more than 2000 ms ago is pushed: it becomes swimming with push-time
`now` and a recovery timer of exactly 1000 ms is scheduled; while
swimming it cannot move (its `moveToLilyPad` is a no-op); once the
recovery callback fires it can move again (a subsequent move teleports
it); and pushing the same occupant again within 2000 ms of the first
push is suppressed (its state is left exactly as the recovery left it). -/
theorem C7_push_mechanics (s : ServerState) (c : ConnState) (padId : String) (now : ℤ)
    (mover occ : Player) (otherId : String) (pad : LilyPad)
    (hMover : mapGet s.players c.socketId = some mover)
    (hNotSwim : mover.isSwimming = false)
    (hPad : s.lilyPads.find? (fun p2 => decide (p2.id = padId)) = some pad)
    (hOcc : mapGet s.players otherId = some occ)
    (hNe : otherId ≠ c.socketId)
    (hX : occ.x = pad.x) (hY : occ.y = pad.y)
    (hSz : occ.size < mover.size)
    (hOccNotSwim : occ.isSwimming = false)
    (hCool : 2000 < now - occ.lastPushTime) :
    mapGet (moveToLilyPadHandler s c padId now).state.players otherId
      = some { occ with isSwimming := true, lastPushTime := now }
    ∧ (otherId, (1000 : ℤ)) ∈ (moveToLilyPadHandler s c padId now).scheduled
    ∧ (∀ (c2 : ConnState) (padId2 : String) (now2 : ℤ), c2.socketId = otherId →
        moveToLilyPadHandler (moveToLilyPadHandler s c padId now).state c2 padId2 now2
          = ⟨(moveToLilyPadHandler s c padId now).state, c2, [], []⟩)
    ∧ mapGet (swimClearHandler (moveToLilyPadHandler s c padId now).state c
          otherId).state.players otherId
        = some { occ with isSwimming := false, lastPushTime := now }
    ∧ (∀ (c2 : ConnState) (padId2 : String) (now2 : ℤ) (pad2 : LilyPad),
        c2.socketId = otherId →
        s.lilyPads.find? (fun p2 => decide (p2.id = padId2)) = some pad2 →
        ∃ p2, mapGet (moveToLilyPadHandler
              (swimClearHandler (moveToLilyPadHandler s c padId now).state c otherId).state
              c2 padId2 now2).state.players otherId = some p2
          ∧ p2.x = pad2.x ∧ p2.y = pad2.y ∧ p2.isSwimming = false)
    ∧ (∀ t2 : ℤ, t2 - now ≤ 2000 →
        mapGet (moveToLilyPadHandler
              (swimClearHandler (moveToLilyPadHandler s c padId now).state c otherId).state
              c padId t2).state.players otherId
          = some { occ with isSwimming := false, lastPushTime := now }) := by
  have hpc : pushCond c.socketId mover pad now (otherId, occ) :=
    ⟨hNe, hX, hY, hSz, hOccNotSwim, hCool⟩
  have h1 : moveToLilyPadHandler s c padId now =
      ⟨{ s with
           players := mapSet (pushMap c.socketId mover pad now s.players) c.socketId
             { mover with
                 x := pad.x, y := pad.y,
                 health := mover.health, maxHealth := mover.maxHealth } },
       c,
       (s.players.filter (fun pr => decide (pushCond c.socketId mover pad now pr))).map
         (fun pr => (pr.1, (1000 : ℤ))),
       ((s.players.filter (fun pr => decide (pushCond c.socketId mover pad now pr))).map
         (fun pr => GameEvent.playerPushed pr.1 c.socketId pr.2.x pr.2.y)) ++
         [GameEvent.playerMoved c.socketId pad.x pad.y mover.health mover.maxHealth,
          GameEvent.playerHealthUpdate c.socketId mover.health mover.maxHealth]⟩ := by
    unfold moveToLilyPadHandler
    rw [hMover, hPad]
    dsimp only
    simp only [hNotSwim, Bool.false_eq_true, if_false]
  rw [h1]
  dsimp only
  have hGet1 : mapGet (mapSet (pushMap c.socketId mover pad now s.players) c.socketId
      { mover with
          x := pad.x, y := pad.y,
          health := mover.health, maxHealth := mover.maxHealth }) otherId
      = some { occ with isSwimming := true, lastPushTime := now } := by
    rw [mapGet_mapSet_ne _ _ hNe, mapGet_pushMap, hOcc]
    simp only [Option.map_some']
    rw [if_pos hpc]
  have h2 : swimClearHandler
      ⟨mapSet (pushMap c.socketId mover pad now s.players) c.socketId
        { mover with
            x := pad.x, y := pad.y,
            health := mover.health, maxHealth := mover.maxHealth },
       s.flies, s.lilyPads, s.playerNames, s.takenUsernames⟩ c otherId =
      ⟨⟨mapSet (mapSet (pushMap c.socketId mover pad now s.players) c.socketId
          { mover with
              x := pad.x, y := pad.y,
              health := mover.health, maxHealth := mover.maxHealth })
          otherId { occ with isSwimming := false, lastPushTime := now },
        s.flies, s.lilyPads, s.playerNames, s.takenUsernames⟩,
       c, [], [GameEvent.playerCanMove otherId]⟩ := by
    unfold swimClearHandler
    rw [hGet1]
    rfl
  refine ⟨hGet1, ?_, ?_, ?_, ?_, ?_⟩
  · have hmem : (otherId, occ) ∈ s.players := mapGet_mem hOcc
    have hfil : (otherId, occ) ∈ s.players.filter
        (fun pr => decide (pushCond c.socketId mover pad now pr)) :=
      List.mem_filter.mpr ⟨hmem, decide_eq_true hpc⟩
    exact List.mem_map.mpr ⟨(otherId, occ), hfil, rfl⟩
  · intro c2 padId2 now2 hc2
    unfold moveToLilyPadHandler
    rw [hc2, hGet1]
    rfl
  · unfold swimClearHandler
    rw [hGet1]
    dsimp only
    exact mapGet_mapSet_self _ _ _
  · intro c2 padId2 now2 pad2 hc2 hfind2
    rw [h2]
    dsimp only
    unfold moveToLilyPadHandler
    rw [hc2, mapGet_mapSet_self]
    dsimp only
    rw [hfind2]
    dsimp only
    refine ⟨{ occ with x := pad2.x, y := pad2.y, isSwimming := false, lastPushTime := now },
      ?_, rfl, rfl, rfl⟩
    exact mapGet_mapSet_self _ _ _
  · intro t2 ht2
    rw [h2]
    dsimp only
    unfold moveToLilyPadHandler
    have hcs : c.socketId ≠ otherId := fun hh => hNe hh.symm
    rw [mapGet_mapSet_ne _ _ hcs, mapGet_mapSet_self]
    dsimp only
    simp only [hNotSwim, Bool.false_eq_true, if_false]
    rw [hPad]
    dsimp only
    rw [mapGet_mapSet_ne _ _ hNe, mapGet_pushMap, mapGet_mapSet_self]
    simp only [Option.map_some']
    rw [if_neg ?hsup]
    case hsup =>
      intro hcond
      have h5 := hcond.2.2.2.2.2
      dsimp only at h5
      omega

/-- The health invariant of claim C5 over a player registry. -/
def HealthInv (ps : List (String × Player)) : Prop :=
  ∀ pr ∈ ps, 0 ≤ pr.2.health ∧ pr.2.health ≤ pr.2.maxHealth

theorem mem_mapSet {α : Type} {ps : List (String × α)} {k : String} {v : α}
    {pr : String × α} (h : pr ∈ mapSet ps k v) : pr ∈ ps ∨ pr = (k, v) := by
  induction ps with
  | nil =>
    simp [mapSet] at h
    exact Or.inr h
  | cons hd tl ih =>
    obtain ⟨k2, v2⟩ := hd
    by_cases hk : k2 = k
    · simp only [mapSet, if_pos hk] at h
      rcases List.mem_cons.1 h with rfl | htl
      · exact Or.inr rfl
      · exact Or.inl (List.mem_cons_of_mem _ htl)
    · simp only [mapSet, if_neg hk] at h
      rcases List.mem_cons.1 h with rfl | htl
      · exact Or.inl (List.mem_cons_self _ _)
      · rcases ih htl with hl | hr
        · exact Or.inl (List.mem_cons_of_mem _ hl)
        · exact Or.inr hr

theorem mem_mapDelete {α : Type} {ps : List (String × α)} {k : String}
    {pr : String × α} (h : pr ∈ mapDelete ps k) : pr ∈ ps := by
  induction ps with
  | nil => simp [mapDelete] at h
  | cons hd tl ih =>
    obtain ⟨k2, v2⟩ := hd
    by_cases hk : k2 = k
    · simp only [mapDelete, if_pos hk] at h
      exact List.mem_cons_of_mem _ (ih h)
    · simp only [mapDelete, if_neg hk] at h
      rcases List.mem_cons.1 h with rfl | htl
      · exact List.mem_cons_self _ _
      · exact List.mem_cons_of_mem _ (ih htl)

theorem healthInv_mapSet {ps : List (String × Player)} {k : String} {v : Player}
    (h : HealthInv ps) (h0 : 0 ≤ v.health) (h1 : v.health ≤ v.maxHealth) :
    HealthInv (mapSet ps k v) := by
  intro pr hpr
  rcases mem_mapSet hpr with hmem | rfl
  · exact h pr hmem
  · exact ⟨h0, h1⟩

theorem healthInv_mapDelete {ps : List (String × Player)} {k : String}
    (h : HealthInv ps) : HealthInv (mapDelete ps k) :=
  fun pr hpr => h pr (mem_mapDelete hpr)

theorem healthInv_pushMap (sockId : String) (mover : Player) (targetPad : LilyPad)
    (now : ℤ) {ps : List (String × Player)} (h : HealthInv ps) :
    HealthInv (pushMap sockId mover targetPad now ps) := by
  intro pr hpr
  obtain ⟨q, hq, rfl⟩ := List.mem_map.1 hpr
  have hb := h q hq
  dsimp only
  by_cases hc : pushCond sockId mover targetPad now q
  · rw [if_pos hc]
    exact hb
  · rw [if_neg hc]
    exact hb

/-- Claim C5: for every registered player, after every handled event
(join, respawn, move, attack, catch, disconnect — and the swim-recovery
callback), health stays within `[0, maxHealth]`, assuming it did before
the event. -/
theorem C5_health_invariant_preserved (s : ServerState) (c : ConnState) (e : InEvent)
    (out : StepOut) (hInv : HealthInv s.players) (h : handle s c e = some out) :
    HealthInv out.state.players := by
  cases e with
  | newPlayer name r =>
    simp only [handle] at h
    unfold newPlayerHandler at h
    split at h
    · injection h with h2
      subst h2
      exact hInv
    · dsimp only at h
      split at h
      · exact absurd h (by simp)
      · split at h
        · injection h with h2
          subst h2
          exact healthInv_mapSet hInv (by norm_num [freshPlayer]) (by norm_num [freshPlayer])
        · injection h with h2
          subst h2
          exact healthInv_mapSet hInv (by norm_num [freshPlayer]) (by norm_num [freshPlayer])
  | respawn r =>
    simp only [handle] at h
    unfold respawnHandler at h
    split at h
    · exact absurd h (by simp)
    · injection h with h2
      subst h2
      exact healthInv_mapSet hInv (by norm_num [freshPlayer]) (by norm_num [freshPlayer])
  | moveToLilyPad padId now =>
    simp only [handle] at h
    unfold moveToLilyPadHandler at h
    split at h
    · injection h with h2
      subst h2
      exact hInv
    · next player hplayer =>
      split at h
      · injection h with h2
        subst h2
        exact hInv
      · split at h
        · injection h with h2
          subst h2
          exact hInv
        · injection h with h2
          subst h2
          have hpb := hInv _ (mapGet_mem hplayer)
          exact healthInv_mapSet (healthInv_pushMap _ _ _ _ hInv) hpb.1 hpb.2
  | tongueAttack targetId now =>
    simp only [handle] at h
    unfold tongueAttackHandler at h
    split at h
    · next target hatt htgt =>
      have htb := hInv _ (mapGet_mem htgt)
      dsimp only at htb
      dsimp only at h
      split at h
      · injection h with h2
        subst h2
        exact hInv
      · split at h
        · injection h with h2
          subst h2
          exact healthInv_mapDelete hInv
        · injection h with h2
          subst h2
          refine healthInv_mapSet hInv (le_max_left _ _) ?_
          dsimp only
          omega
    · injection h with h2
      subst h2
      exact hInv
  | catchFly flyId newFly =>
    simp only [handle] at h
    unfold catchFlyHandler at h
    split at h
    · injection h with h2
      subst h2
      exact hInv
    · next player hplayer =>
      split at h
      · injection h with h2
        subst h2
        exact hInv
      · injection h with h2
        subst h2
        have hpb := hInv _ (mapGet_mem hplayer)
        dsimp only
        by_cases hlvl : player.level < getLevelFromXP (player.xp + 1)
        · rw [if_pos hlvl]
          have h1n := one_le_getLevelFromXP (player.xp + 1)
          refine healthInv_mapSet hInv ?_ ?_
          · show (0:ℤ) ≤ 50 + ((getLevelFromXP (player.xp + 1) : ℤ) - 1) * 10
            omega
          · show (50:ℤ) + ((getLevelFromXP (player.xp + 1) : ℤ) - 1) * 10
              ≤ 50 + ((getLevelFromXP (player.xp + 1) : ℤ) - 1) * 10
            exact le_refl _
        · rw [if_neg hlvl]
          exact healthInv_mapSet hInv hpb.1 hpb.2
  | disconnect =>
    simp only [handle] at h
    unfold disconnectHandler at h
    split at h
    · injection h with h2
      subst h2
      exact healthInv_mapDelete hInv
    · injection h with h2
      subst h2
      exact hInv
  | swimClearFire pid =>
    simp only [handle] at h
    unfold swimClearHandler at h
    split at h
    · next p hp =>
      have hpb := hInv _ (mapGet_mem hp)
      split at h
      · injection h with h2
        subst h2
        exact healthInv_mapSet hInv hpb.1 hpb.2
      · injection h with h2
        subst h2
        exact hInv
    · injection h with h2
      subst h2
      exact hInv

/-- Witness for C5: the disconnect of the registered attacker `"a"` in
the concrete attack state preserves the invariant. -/
theorem C5_health_invariant_preserved_witness :
    HealthInv (disconnectHandler stateAttack ⟨"a", some "A", []⟩).state.players :=
  C5_health_invariant_preserved stateAttack ⟨"a", some "A", []⟩ InEvent.disconnect
    (disconnectHandler stateAttack ⟨"a", some "A", []⟩) (by unfold HealthInv; decide) rfl

/-- A large frog on the center pad and a smaller one on the side pad,
for the C7 witness. -/
def frogBig : Player := ⟨"big", "Big", 1200, 900, 2, 60, 60, false, 0, 3, 12⟩

def frogSmall : Player := ⟨"sml", "Small", 300, 400, 1, 50, 50, false, 0, 1, 0⟩

def statePush : ServerState :=
  ⟨[("big", frogBig), ("sml", frogSmall)], [], [padCenter, padSide],
   [("big", "Big"), ("sml", "Small")], ["Big", "Small"]⟩

/-- Witness for C7: `"big"` hops onto `"pad-2-3"` at t=10000 and pushes
`"sml"`; the 1000 ms timer is scheduled; `"sml"` cannot move at
t=10500; after the recovery callback it moves to the center pad at
t=11000; a second hop by `"big"` at t=11500 (1500 ms after the push)
does not push `"sml"` again. -/
theorem C7_push_mechanics_witness :
    mapGet (moveToLilyPadHandler statePush ⟨"big", some "Big", []⟩
        "pad-2-3" 10000).state.players "sml"
      = some { frogSmall with isSwimming := true, lastPushTime := 10000 }
    ∧ ("sml", (1000 : ℤ)) ∈ (moveToLilyPadHandler statePush ⟨"big", some "Big", []⟩
        "pad-2-3" 10000).scheduled
    ∧ moveToLilyPadHandler (moveToLilyPadHandler statePush ⟨"big", some "Big", []⟩
          "pad-2-3" 10000).state ⟨"sml", some "Small", []⟩ "pad-center" 10500
        = ⟨(moveToLilyPadHandler statePush ⟨"big", some "Big", []⟩ "pad-2-3" 10000).state,
           ⟨"sml", some "Small", []⟩, [], []⟩
    ∧ mapGet (swimClearHandler (moveToLilyPadHandler statePush ⟨"big", some "Big", []⟩
          "pad-2-3" 10000).state ⟨"big", some "Big", []⟩ "sml").state.players "sml"
        = some { frogSmall with isSwimming := false, lastPushTime := 10000 }
    ∧ (∃ p2, mapGet (moveToLilyPadHandler
          (swimClearHandler (moveToLilyPadHandler statePush ⟨"big", some "Big", []⟩
            "pad-2-3" 10000).state ⟨"big", some "Big", []⟩ "sml").state
          ⟨"sml", some "Small", []⟩ "pad-center" 11000).state.players "sml" = some p2
        ∧ p2.x = padCenter.x ∧ p2.y = padCenter.y ∧ p2.isSwimming = false)
    ∧ mapGet (moveToLilyPadHandler
          (swimClearHandler (moveToLilyPadHandler statePush ⟨"big", some "Big", []⟩
            "pad-2-3" 10000).state ⟨"big", some "Big", []⟩ "sml").state
          ⟨"big", some "Big", []⟩ "pad-2-3" 11500).state.players "sml"
        = some { frogSmall with isSwimming := false, lastPushTime := 10000 } := by
  have H := C7_push_mechanics statePush ⟨"big", some "Big", []⟩ "pad-2-3" 10000
    frogBig frogSmall "sml" padSide (by decide) (by decide) (by decide) (by decide)
    (by decide) (by decide) (by decide) (by decide) (by decide) (by decide)
  exact ⟨H.1, H.2.1, H.2.2.1 ⟨"sml", some "Small", []⟩ "pad-center" 10500 rfl,
    H.2.2.2.1, H.2.2.2.2.1 ⟨"sml", some "Small", []⟩ "pad-center" 11000 padCenter rfl
      (by decide), H.2.2.2.2.2 11500 (by decide)⟩
